import Mathlib

/-!
Shallow embedding of the Terra oracle price feeder, src/feeder/src/index.ts.

The voting loop in the source is a while-true loop over mutable state
consisting of the prevotePrices map, the prevoteSalts map and the
prevotePeriod variable.  We embed one iteration of that loop as a pure
function from the pre-iteration state and an environment record (the
responses the network would return during the iteration) to an iteration
result: the post-iteration state, the messages assembled for broadcast,
the fee, and an outcome tag mirroring the control path taken.
-/

namespace OracleFeeder

/-- A single price observation from a price source response: a currency
code and a decimal price string. -/
structure PriceObs where
  currency : String
  price : String
deriving Repr, DecidableEq

/-- The body of a price-source response, as far as getPrices inspects it.
created_at is none when the field is missing or not a string, some none
when it is a string whose date parse is NaN, and some (some t) when it
parses to epoch-millisecond time t.  prices is none when the field is not
an array, and some l when it is the array l, possibly empty. -/
structure PriceResponse where
  created_at : Option (Option Int)
  prices : Option (List PriceObs)
deriving Repr, DecidableEq

/-- The filter predicate getPrices applies to a price-source response:
created_at must be a string and prices an array, and the response is
dropped when now minus the parsed timestamp exceeds 30000 ms.  A
created_at string whose date parse is NaN survives the age test because a
comparison against NaN is false in JavaScript. -/
def validPriceResponse (now : Int) (r : PriceResponse) : Bool :=
  match r.created_at, r.prices with
  | none, _ => false
  | _, none => false
  | some none, some _ => true
  | some (some t), some _ => decide (now - t ≤ 30000)

/-- Aggregate the price sources.  Bluebird.some with count 1 resolves with
the first fulfilled response only; that single response is then filtered
for validity, and the prices field of the survivor is returned.  The
arrivals argument lists the fulfilled responses in fulfillment order. -/
def getPrices (now : Int) (arrivals : List PriceResponse) :
    Except String (List PriceObs) :=
  match (arrivals.take 1).filter (validPriceResponse now) with
  | [] => Except.error "could not fetch any price"
  | r :: _ => Except.ok (r.prices.getD [])

/-- The value object of an account query response.  A field is none when
it is missing or not of string type. -/
structure AccountResponseValue where
  account_number : Option String
  sequence : Option String
deriving Repr, DecidableEq

/-- The account data the feeder keeps: both fields are passed through as
strings, never parsed. -/
structure Account where
  account_number : String
  sequence : String
deriving Repr, DecidableEq

/-- queryAccount checks only that account_number and sequence are strings
and otherwise returns them untouched. -/
def queryAccount (v : AccountResponseValue) : Except String Account :=
  match v.account_number, v.sequence with
  | some a, some s => Except.ok { account_number := a, sequence := s }
  | _, _ => Except.error "Failed to fetch account number and sequence"

/-- Broadcast response: txhash plus the application code, with 0 standing
for a missing or zero code field (both are falsy in the source). -/
structure BroadcastData where
  txhash : String
  code : Nat
deriving Repr, DecidableEq

/-- Transaction query result: the height of the including block and the
application code, 0 for missing or zero. -/
structure TxResult where
  height : Nat
  code : Nat
deriving Repr, DecidableEq

/-- waitTx polls the transaction endpoint once per second and returns the
first poll that yields a result; the caller bounds the polls at 45. -/
def waitTx : List (Option TxResult) → Option TxResult
  | [] => none
  | some r :: _ => some r
  | none :: rest => waitTx rest

/-- Modelled from the spec: msg.generateVoteHash lives in the msg module,
which is not under src.  Per the spec it is the truncated hex SHA-256 of
the canonical string joining salt, exchange rate, denom and validator with
colons; we model the digest by its preimage fields, which no claim needs
to collide. -/
structure VoteHash where
  salt : String
  exchange_rate : String
  denom : String
  validator : String
deriving Repr, DecidableEq

/-- Modelled from the spec: the commitment binding of the msg module. -/
def generateVoteHash (salt price denom validator : String) : VoteHash :=
  { salt := salt, exchange_rate := price, denom := denom,
    validator := validator }

/-- An oracle/MsgExchangeRateVote value; shape modelled from the spec for
the missing msg module. -/
structure VoteMsg where
  exchange_rate : String
  salt : String
  denom : String
  feeder : String
  validator : String
deriving Repr, DecidableEq

/-- An oracle/MsgExchangeRatePrevote value; shape modelled from the spec
for the missing msg module. -/
structure PrevoteMsg where
  hash : VoteHash
  denom : String
  feeder : String
  validator : String
deriving Repr, DecidableEq

/-- Modelled from the spec: msg.generateVoteMsg of the missing msg
module packs its five string arguments into a vote message. -/
def generateVoteMsg (rate salt denom feeder validator : String) : VoteMsg :=
  { exchange_rate := rate, salt := salt, denom := denom, feeder := feeder,
    validator := validator }

/-- Modelled from the spec: msg.generatePrevoteMsg of the missing msg
module packs hash, denom, feeder and validator into a prevote message. -/
def generatePrevoteMsg (hash : VoteHash) (denom feeder validator : String) :
    PrevoteMsg :=
  { hash := hash, denom := denom, feeder := feeder, validator := validator }

/-- The fee object of the assembled transaction. -/
structure StdFee where
  amount : Nat
  denom : String
  gas : Nat
deriving Repr, DecidableEq

/-- Gas limit for a transaction carrying msgCount messages. -/
def gasFor (msgCount : Nat) : Nat := 50000 + msgCount * 7500

/-- Math.ceil of gas times 0.015, computed exactly over the integers as
the ceiling of 3 times gas divided by 200. -/
def feeAmount (gas : Nat) : Nat := (gas * 3 + 199) / 200

/-- The fee record assembled for a transaction with msgCount messages. -/
def feesFor (msgCount : Nat) : StdFee :=
  { amount := feeAmount (gasFor msgCount), denom := "ukrw",
    gas := gasFor msgCount }

/-- The mutable state of the voting loop: the prevotePrices object, the
prevoteSalts object, and the prevotePeriod variable, none while still
undefined. -/
structure FeederState where
  prevotePrices : List (String × String)
  prevoteSalts : List (String × String)
  prevotePeriod : Option Nat
deriving Repr, DecidableEq

/-- String.toLower, written as a structural map over the character list
so that the kernel can evaluate it. -/
def toLowerStr (s : String) : String := ⟨s.data.map Char.toLower⟩

/-- Split a character list at commas, JavaScript split semantics: the
empty list yields one empty group. -/
def splitCommaAux : List Char → List (List Char)
  | [] => [[]]
  | c :: rest =>
    match splitCommaAux rest with
    | [] => [[]]
    | grp :: grps =>
      if c = ',' then [] :: grp :: grps else (c :: grp) :: grps

/-- JavaScript String.prototype.split with separator comma. -/
def splitComma (s : String) : List String :=
  (splitCommaAux s.data).map (fun l => ⟨l⟩)

/-- The denom list: denoms.split on comma, each entry lowercased. -/
def parseDenoms (denoms : String) : List String :=
  (splitComma denoms).map toLowerStr

/-- Static configuration of the voting loop: the parsed vote period, the
parsed denom filter, the resolved validator address list, and the feeder
account address. -/
structure Config where
  oracleVotePeriod : Nat
  denomArray : List String
  validators : List String
  feeder : String
deriving Repr, DecidableEq

/-- JavaScript object property write: overwrite the value in place when
the key is present, append the pair otherwise. -/
def mapSet : List (String × String) → String → String → List (String × String)
  | [], k, v => [(k, v)]
  | (k0, v0) :: rest, k, v =>
    if k0 = k then (k0, v) :: rest else (k0, v0) :: mapSet rest k v

/-- Object.assign target src: write every pair of src into target in
order. -/
def objAssign (target src : List (String × String)) :
    List (String × String) :=
  src.foldl (fun m kv => mapSet m kv.1 kv.2) target

/-- JavaScript truthiness of the prevotePeriod variable: defined and
nonzero. -/
def truthyOpt : Option Nat → Bool
  | none => false
  | some p => decide (p ≠ 0)

/-- The skip gate at the top of an iteration: skip while the index in the
vote period is below oracleVotePeriod minus 3, or when prevotePeriod is
truthy and equals the sampled vote period. -/
def skipGate (cfg : Config) (st : FeederState) (height : Nat) : Bool :=
  decide (((height % cfg.oracleVotePeriod : Nat) : Int) <
      (cfg.oracleVotePeriod : Int) - 3) ||
    (truthyOpt st.prevotePeriod &&
      decide (st.prevotePeriod.getD 0 = height / cfg.oracleVotePeriod))

/-- The reveal gate: prevotePeriod is truthy and the sampled vote period
minus it equals 1. -/
def voteGate (st : FeederState) (votePeriod : Nat) : Bool :=
  truthyOpt st.prevotePeriod &&
    decide ((votePeriod : Int) - (st.prevotePeriod.getD 0 : Int) = 1)

/-- Build the reveal messages.  For each sampled price whose lowercased
currency passes the denom filter, the remembered price of that currency is
read from prevotePrices; reading a missing entry models the TypeError the
source raises when it stringifies an undefined remembered price.  One
message per validator is produced, carrying the remembered price and
salt. -/
def buildVoteMsgs (cfg : Config) (st : FeederState) :
    List PriceObs → Except String (List VoteMsg)
  | [] => Except.ok []
  | o :: rest =>
    if cfg.denomArray.contains (toLowerStr o.currency) then
      match st.prevotePrices.lookup o.currency with
      | none => Except.error "TypeError: cannot read property of undefined"
      | some rememberedPrice =>
        match buildVoteMsgs cfg st rest with
        | Except.error e => Except.error e
        | Except.ok tail =>
          Except.ok
            ((cfg.validators.map (fun valAddr =>
              generateVoteMsg rememberedPrice
                ((st.prevoteSalts.lookup o.currency).getD "undefined")
                ("u" ++ toLowerStr o.currency) cfg.feeder valAddr)) ++ tail)
    else buildVoteMsgs cfg st rest

/-- One step of the prevote forEach: filter on the denom list, record a
fresh salt and the current price into the update maps, and emit one
prevote message per validator carrying the commitment hash. -/
def prevoteStep (cfg : Config) (saltFor : String → String)
    (acc : List PrevoteMsg × List (String × String) × List (String × String))
    (o : PriceObs) :
    List PrevoteMsg × List (String × String) × List (String × String) :=
  if cfg.denomArray.contains (toLowerStr o.currency) then
    let salt := saltFor o.currency
    let denom := "u" ++ toLowerStr o.currency
    let newMsgs := cfg.validators.map (fun valAddr =>
      generatePrevoteMsg (generateVoteHash salt o.price denom valAddr)
        denom cfg.feeder valAddr)
    (acc.1 ++ newMsgs, mapSet acc.2.1 o.currency o.price,
      mapSet acc.2.2 o.currency salt)
  else acc

/-- Build the prevote messages plus the priceUpdateMap and the
priceUpdateSaltMap by folding the prevote step over the sampled prices. -/
def buildPrevotes (cfg : Config) (saltFor : String → String)
    (prices : List PriceObs) :
    List PrevoteMsg × List (String × String) × List (String × String) :=
  prices.foldl (prevoteStep cfg saltFor) ([], [], [])

/-- The environment of one iteration: everything the network and the
random number generator would supply.  priceArrivals lists the fulfilled
source responses in fulfillment order; accountResp is none on a network
error; broadcastResp is none on a network or transport error; txPolls
gives the successive results of the confirmation polls. -/
structure Env where
  latestHeight : Nat
  now : Int
  priceArrivals : List PriceResponse
  accountResp : Option AccountResponseValue
  saltFor : String → String
  broadcastResp : Option BroadcastData
  txPolls : List (Option TxResult)

/-- The control path an iteration took. -/
inductive Outcome where
  | skipped
  | errored
  | noMessages
  | broadcastFailed
  | confirmFailed
  | confirmed (txHeight : Nat)
deriving Repr, DecidableEq

/-- The observable result of one iteration of the voting loop. -/
structure IterResult where
  state : FeederState
  votes : List VoteMsg
  prevotes : List PrevoteMsg
  fee : Option StdFee
  committed : List (String × String)
  inclusionPeriod : Option Nat
  sampledPeriod : Nat
  outcome : Outcome
deriving Repr, DecidableEq

/-- Result of an iteration that threw the skip sentinel. -/
def skipResult (st : FeederState) (votePeriod : Nat) : IterResult :=
  { state := st, votes := [], prevotes := [], fee := none, committed := [],
    inclusionPeriod := none, sampledPeriod := votePeriod,
    outcome := Outcome.skipped }

/-- Result of an iteration that threw an unexpected exception. -/
def erroredResult (st : FeederState) (votePeriod : Nat) : IterResult :=
  { state := st, votes := [], prevotes := [], fee := none, committed := [],
    inclusionPeriod := none, sampledPeriod := votePeriod,
    outcome := Outcome.errored }

/-- Result of an iteration that assembled no messages. -/
def noMsgResult (st : FeederState) (votePeriod : Nat) : IterResult :=
  { state := st, votes := [], prevotes := [], fee := none, committed := [],
    inclusionPeriod := none, sampledPeriod := votePeriod,
    outcome := Outcome.noMessages }

/-- Result of an iteration whose broadcast or confirmation step failed:
the messages and fee were assembled, but the state is untouched. -/
def failedResult (st : FeederState) (votePeriod : Nat)
    (voteMsgs : List VoteMsg) (prevoteMsgs : List PrevoteMsg)
    (oc : Outcome) : IterResult :=
  { state := st, votes := voteMsgs, prevotes := prevoteMsgs,
    fee := some (feesFor (voteMsgs.length + prevoteMsgs.length)),
    committed := [], inclusionPeriod := none, sampledPeriod := votePeriod,
    outcome := oc }

/-- Result of an iteration whose transaction was confirmed with a falsy
code: the update maps are assigned into the memory objects and the new
prevotePeriod is derived from the height of the including block. -/
def confirmedResult (cfg : Config) (st : FeederState) (votePeriod : Nat)
    (voteMsgs : List VoteMsg) (prevoteMsgs : List PrevoteMsg)
    (pm sm : List (String × String)) (tx : TxResult) : IterResult :=
  { state :=
      { prevotePrices := objAssign st.prevotePrices pm,
        prevoteSalts := objAssign st.prevoteSalts sm,
        prevotePeriod := some (tx.height / cfg.oracleVotePeriod) },
    votes := voteMsgs, prevotes := prevoteMsgs,
    fee := some (feesFor (voteMsgs.length + prevoteMsgs.length)),
    committed := pm,
    inclusionPeriod := some (tx.height / cfg.oracleVotePeriod),
    sampledPeriod := votePeriod, outcome := Outcome.confirmed tx.height }

/-- The broadcast and confirmation phase.  State is updated only when the
broadcast returns data with a falsy code and a confirmation poll returns
data with a falsy code; the new prevotePeriod is derived from the height
of the block that included the transaction. -/
def broadcastPhase (cfg : Config) (st : FeederState) (env : Env)
    (votePeriod : Nat) (voteMsgs : List VoteMsg)
    (prevoteMsgs : List PrevoteMsg) (pm sm : List (String × String)) :
    IterResult :=
  match env.broadcastResp with
  | none =>
    failedResult st votePeriod voteMsgs prevoteMsgs Outcome.broadcastFailed
  | some d =>
    if d.code ≠ 0 then
      failedResult st votePeriod voteMsgs prevoteMsgs Outcome.broadcastFailed
    else
      match waitTx (env.txPolls.take 45) with
      | none =>
        failedResult st votePeriod voteMsgs prevoteMsgs Outcome.confirmFailed
      | some tx =>
        if tx.code ≠ 0 then
          failedResult st votePeriod voteMsgs prevoteMsgs
            Outcome.confirmFailed
        else confirmedResult cfg st votePeriod voteMsgs prevoteMsgs pm sm tx

/-- The message-building phase after prices and account are in hand:
reveals when the reveal gate holds, prevotes always, then broadcast when
any message was produced.  A TypeError from the reveal builder is the
unexpected-exception path. -/
def afterAccount (cfg : Config) (st : FeederState) (env : Env)
    (votePeriod : Nat) (prices : List PriceObs) : IterResult :=
  match
    (if voteGate st votePeriod then buildVoteMsgs cfg st prices
     else Except.ok []) with
  | Except.error _ => erroredResult st votePeriod
  | Except.ok voteMsgs =>
    if voteMsgs.length + (buildPrevotes cfg env.saltFor prices).1.length = 0
    then noMsgResult st votePeriod
    else
      broadcastPhase cfg st env votePeriod voteMsgs
        (buildPrevotes cfg env.saltFor prices).1
        (buildPrevotes cfg env.saltFor prices).2.1
        (buildPrevotes cfg env.saltFor prices).2.2

/-- One iteration of the voting loop. -/
def runIteration (cfg : Config) (st : FeederState) (env : Env) :
    IterResult :=
  if skipGate cfg st env.latestHeight then
    skipResult st (env.latestHeight / cfg.oracleVotePeriod)
  else
    match getPrices env.now env.priceArrivals with
    | Except.error _ =>
      skipResult st (env.latestHeight / cfg.oracleVotePeriod)
    | Except.ok prices =>
      match env.accountResp with
      | none => skipResult st (env.latestHeight / cfg.oracleVotePeriod)
      | some v =>
        match queryAccount v with
        | Except.error _ =>
          skipResult st (env.latestHeight / cfg.oracleVotePeriod)
        | Except.ok _ =>
          afterAccount cfg st env (env.latestHeight / cfg.oracleVotePeriod)
            prices

/-- Pacing at the bottom of the loop: after a normal or skip iteration the
loop sleeps the maximum of 5000 and 6000 minus the elapsed milliseconds;
an unexpected error runs continue and restarts the loop immediately,
sleeping nothing. -/
def sleepAfter (r : IterResult) (elapsedMillis : Nat) : Option Nat :=
  match r.outcome with
  | Outcome.errored => none
  | _ => some (max 5000 (6000 - elapsedMillis))

/-- The inclusion period of the last confirmed broadcast whose price
update map wrote currency c, over a list of iteration results. -/
def lastCommitPeriod (results : List IterResult) (c : String) :
    Option Nat :=
  results.foldl
    (fun acc r =>
      if (r.committed.map Prod.fst).contains c then r.inclusionPeriod
      else acc)
    none

/-! Concrete fixtures used by witnesses and counterexamples. -/

/-- Fixture configuration: vote period 5, denom filter krw, one
validator. -/
def cfgA : Config :=
  { oracleVotePeriod := 5, denomArray := ["krw"], validators := ["val1"],
    feeder := "feeder1" }

/-- Fixture configuration with two currencies in the denom filter. -/
def cfgB : Config :=
  { oracleVotePeriod := 5, denomArray := ["krw", "usd"],
    validators := ["val1"], feeder := "feeder1" }

/-- Fixture configuration with the default denom argument "all". -/
def cfgAll : Config :=
  { oracleVotePeriod := 5, denomArray := parseDenoms "all",
    validators := ["val1"], feeder := "feeder1" }

/-- The initial feeder state: empty maps, undefined prevotePeriod. -/
def s0 : FeederState :=
  { prevotePrices := [], prevoteSalts := [], prevotePeriod := none }

/-- Fixture environment: a healthy network at the given sampled height,
one fresh source response carrying the given prices, a wellformed
account, the given salt for every currency, a zero-code broadcast and a
zero-code confirmation at the given included height. -/
def goodEnv (height txHeight : Nat) (prices : List PriceObs)
    (salt : String) : Env :=
  { latestHeight := height, now := 0,
    priceArrivals := [{ created_at := some (some 0), prices := some prices }],
    accountResp := some { account_number := some "1", sequence := some "0" },
    saltFor := fun _ => salt,
    broadcastResp := some { txhash := "TXHASH", code := 0 },
    txPolls := [some { height := txHeight, code := 0 }] }

/-! Helper lemmas about the phases of an iteration. -/

theorem broadcastPhase_cases (cfg : Config) (st : FeederState) (env : Env)
    (vp : Nat) (vs : List VoteMsg) (ps : List PrevoteMsg)
    (pm sm : List (String × String)) :
    (broadcastPhase cfg st env vp vs ps pm sm =
        failedResult st vp vs ps Outcome.broadcastFailed ∨
      broadcastPhase cfg st env vp vs ps pm sm =
        failedResult st vp vs ps Outcome.confirmFailed) ∨
    ∃ d tx, env.broadcastResp = some d ∧ d.code = 0 ∧
      waitTx (env.txPolls.take 45) = some tx ∧ tx.code = 0 ∧
      broadcastPhase cfg st env vp vs ps pm sm =
        confirmedResult cfg st vp vs ps pm sm tx := by
  cases hbr : env.broadcastResp with
  | none => exact Or.inl (Or.inl (by simp [broadcastPhase, hbr]))
  | some d =>
    by_cases hd : d.code = 0
    · cases hw : waitTx (env.txPolls.take 45) with
      | none => exact Or.inl (Or.inr (by simp [broadcastPhase, hbr, hd, hw]))
      | some tx =>
        by_cases ht : tx.code = 0
        · exact Or.inr ⟨d, tx, rfl, hd, rfl, ht,
            by simp [broadcastPhase, hbr, hd, hw, ht]⟩
        · exact Or.inl (Or.inr (by simp [broadcastPhase, hbr, hd, hw, ht]))
    · exact Or.inl (Or.inl (by simp [broadcastPhase, hbr, hd]))

theorem afterAccount_cases (cfg : Config) (st : FeederState) (env : Env)
    (vp : Nat) (prices : List PriceObs) :
    (afterAccount cfg st env vp prices = erroredResult st vp ∨
      afterAccount cfg st env vp prices = noMsgResult st vp) ∨
    ∃ vs,
      (if voteGate st vp then buildVoteMsgs cfg st prices
       else Except.ok []) = Except.ok vs ∧
      vs.length + (buildPrevotes cfg env.saltFor prices).1.length ≠ 0 ∧
      afterAccount cfg st env vp prices =
        broadcastPhase cfg st env vp vs
          (buildPrevotes cfg env.saltFor prices).1
          (buildPrevotes cfg env.saltFor prices).2.1
          (buildPrevotes cfg env.saltFor prices).2.2 := by
  cases hv : (if voteGate st vp then buildVoteMsgs cfg st prices
              else Except.ok []) with
  | error e => exact Or.inl (Or.inl (by simp [afterAccount, hv]))
  | ok vs =>
    by_cases hn :
        vs.length + (buildPrevotes cfg env.saltFor prices).1.length = 0
    · exact Or.inl (Or.inr (by simp [afterAccount, hv, hn]))
    · exact Or.inr ⟨vs, rfl, hn, by simp [afterAccount, hv, hn]⟩

theorem runIteration_cases (cfg : Config) (st : FeederState) (env : Env) :
    runIteration cfg st env =
        skipResult st (env.latestHeight / cfg.oracleVotePeriod) ∨
    ∃ prices, getPrices env.now env.priceArrivals = Except.ok prices ∧
      runIteration cfg st env =
        afterAccount cfg st env (env.latestHeight / cfg.oracleVotePeriod)
          prices := by
  by_cases hg : skipGate cfg st env.latestHeight
  · exact Or.inl (by simp [runIteration, hg])
  · cases hp : getPrices env.now env.priceArrivals with
    | error e => exact Or.inl (by simp [runIteration, hg, hp])
    | ok prices =>
      cases ha : env.accountResp with
      | none => exact Or.inl (by simp [runIteration, hg, hp, ha])
      | some v =>
        cases hq : queryAccount v with
        | error e => exact Or.inl (by simp [runIteration, hg, hp, ha, hq])
        | ok acc =>
          exact Or.inr ⟨prices, rfl, by simp [runIteration, hg, hp, ha, hq]⟩

theorem queryAccount_error_of_missing (v : AccountResponseValue)
    (h : v.account_number = none ∨ v.sequence = none) :
    queryAccount v =
      Except.error "Failed to fetch account number and sequence" := by
  obtain ⟨a, s⟩ := v
  cases a <;> cases s <;> simp_all [queryAccount]

theorem validPriceResponse_prices_some (now : Int) (r : PriceResponse)
    (h : validPriceResponse now r = true) :
    r.prices = some (r.prices.getD []) := by
  obtain ⟨ca, pr⟩ := r
  cases ca <;> cases pr <;> simp_all [validPriceResponse]

theorem validPriceResponse_created (now : Int) (r : PriceResponse)
    (h : validPriceResponse now r = true) :
    ∃ ca, r.created_at = some ca ∧
      ∀ t, ca = some t → now - t ≤ 30000 := by
  obtain ⟨ca, pr⟩ := r
  cases pr with
  | none => cases ca <;> simp_all [validPriceResponse]
  | some l =>
    cases ca with
    | none => simp_all [validPriceResponse]
    | some ca =>
      cases ca with
      | none => exact ⟨none, rfl, by intro t ht; cases ht⟩
      | some t =>
        refine ⟨some t, rfl, ?_⟩
        intro u hu
        injection hu with hu
        subst hu
        simpa [validPriceResponse] using h

theorem getPrices_ok_inversion (now : Int) (arrivals : List PriceResponse)
    (ps : List PriceObs) (h : getPrices now arrivals = Except.ok ps) :
    ∃ r, arrivals.head? = some r ∧ validPriceResponse now r = true ∧
      r.prices = some ps := by
  cases arrivals with
  | nil => simp [getPrices] at h
  | cons r rest =>
    by_cases hv : validPriceResponse now r
    · refine ⟨r, rfl, hv, ?_⟩
      have hred : getPrices now (r :: rest) =
          Except.ok (r.prices.getD []) := by
        simp [getPrices, List.take_succ_cons, List.take_zero,
          List.filter, hv]
      rw [hred] at h
      injection h with h
      rw [validPriceResponse_prices_some now r hv, h]
    · exfalso
      have hred : getPrices now (r :: rest) =
          Except.error "could not fetch any price" := by
        simp [getPrices, List.take_succ_cons, List.take_zero,
          List.filter, hv]
      rw [hred] at h
      cases h

theorem buildVoteMsgs_sound (cfg : Config) (st : FeederState)
    (ps : List PriceObs) :
    ∀ l : List VoteMsg, buildVoteMsgs cfg st ps = Except.ok l →
      ∀ m ∈ l, ∃ c, st.prevotePrices.lookup c = some m.exchange_rate ∧
        m.salt = (st.prevoteSalts.lookup c).getD "undefined" ∧
        m.denom = "u" ++ toLowerStr c := by
  induction ps with
  | nil =>
    intro l h m hm
    simp only [buildVoteMsgs] at h
    injection h with h
    subst h
    cases hm
  | cons o rest ih =>
    intro l h m hm
    simp only [buildVoteMsgs] at h
    by_cases hc : cfg.denomArray.contains (toLowerStr o.currency)
    · rw [if_pos hc] at h
      cases hlk : st.prevotePrices.lookup o.currency with
      | none => rw [hlk] at h; cases h
      | some rp =>
        rw [hlk] at h
        cases hrest : buildVoteMsgs cfg st rest with
        | error e => rw [hrest] at h; cases h
        | ok tail =>
          rw [hrest] at h
          injection h with h
          subst h
          rcases List.mem_append.mp hm with hmem | hmem
          · rcases List.mem_map.mp hmem with ⟨valAddr, _, heq⟩
            subst heq
            exact ⟨o.currency, hlk, rfl, rfl⟩
          · exact ih tail hrest m hmem
    · rw [if_neg hc] at h
      exact ih l h m hm

theorem buildVoteMsgs_nil_of_filtered (cfg : Config) (st : FeederState)
    (ps : List PriceObs)
    (h : ∀ o ∈ ps, ¬ cfg.denomArray.contains (toLowerStr o.currency)) :
    buildVoteMsgs cfg st ps = Except.ok [] := by
  induction ps with
  | nil => rfl
  | cons o rest ih =>
    simp only [buildVoteMsgs]
    rw [if_neg (h o (List.mem_cons_self o rest))]
    exact ih (fun o ho => h o (List.mem_cons_of_mem _ ho))

theorem prevoteFold_acc_of_filtered (cfg : Config)
    (saltFor : String → String) (ps : List PriceObs) :
    ∀ acc, (∀ o ∈ ps, ¬ cfg.denomArray.contains (toLowerStr o.currency)) →
      ps.foldl (prevoteStep cfg saltFor) acc = acc := by
  induction ps with
  | nil => intro acc _; rfl
  | cons o rest ih =>
    intro acc h
    rw [List.foldl_cons]
    have hstep : prevoteStep cfg saltFor acc o = acc := by
      unfold prevoteStep
      rw [if_neg (h o (List.mem_cons_self o rest))]
    rw [hstep]
    exact ih acc (fun o ho => h o (List.mem_cons_of_mem _ ho))

theorem buildPrevotes_nil_of_filtered (cfg : Config)
    (saltFor : String → String) (ps : List PriceObs)
    (h : ∀ o ∈ ps, ¬ cfg.denomArray.contains (toLowerStr o.currency)) :
    buildPrevotes cfg saltFor ps = ([], [], []) :=
  prevoteFold_acc_of_filtered cfg saltFor ps ([], [], []) h

theorem prevoteFold_length (cfg : Config) (saltFor : String → String)
    (ps : List PriceObs) :
    ∀ acc, (ps.foldl (prevoteStep cfg saltFor) acc).1.length =
      acc.1.length +
        (ps.filter
          (fun o => cfg.denomArray.contains (toLowerStr o.currency))).length *
          cfg.validators.length := by
  induction ps with
  | nil => intro acc; simp
  | cons o rest ih =>
    intro acc
    rw [List.foldl_cons, List.filter_cons]
    by_cases hc : cfg.denomArray.contains (toLowerStr o.currency)
    · rw [if_pos (by simpa using hc), ih]
      have hstep : (prevoteStep cfg saltFor acc o).1.length =
          acc.1.length + cfg.validators.length := by
        unfold prevoteStep
        rw [if_pos hc]
        simp
      rw [hstep, List.length_cons]
      ring
    · rw [if_neg (by simpa using hc), ih]
      have hstep : prevoteStep cfg saltFor acc o = acc := by
        unfold prevoteStep
        rw [if_neg hc]
      rw [hstep]

theorem buildPrevotes_length (cfg : Config) (saltFor : String → String)
    (ps : List PriceObs) :
    (buildPrevotes cfg saltFor ps).1.length =
      (ps.filter
        (fun o => cfg.denomArray.contains (toLowerStr o.currency))).length *
        cfg.validators.length := by
  have h := prevoteFold_length cfg saltFor ps ([], [], [])
  simpa [buildPrevotes] using h

theorem feeAmount_mul_bounds (g : Nat) :
    g * 3 ≤ 200 * feeAmount g ∧ 200 * feeAmount g < g * 3 + 200 := by
  have h := Nat.div_add_mod (g * 3 + 199) 200
  have h2 : (g * 3 + 199) % 200 < 200 := Nat.mod_lt _ (by norm_num)
  unfold feeAmount
  omega

/-- feeAmount computes the exact rational ceiling of gas times 15/1000. -/
theorem feeAmount_eq_ceil (g : Nat) :
    (feeAmount g : Int) = Int.ceil ((g : ℚ) * (15 / 1000)) := by
  obtain ⟨h1, h2⟩ := feeAmount_mul_bounds g
  rw [eq_comm, Int.ceil_eq_iff]
  have hq : ((g : ℚ) * (15 / 1000)) = (g * 3 : ℚ) / 200 := by ring
  constructor
  · rw [hq, lt_div_iff₀ (by norm_num : (0 : ℚ) < 200)]
    have h2q : (200 : ℚ) * (feeAmount g : ℚ) < (g : ℚ) * 3 + 200 := by
      exact_mod_cast h2
    push_cast
    linarith
  · rw [hq, div_le_iff₀ (by norm_num : (0 : ℚ) < 200)]
    have h1q : (g : ℚ) * 3 ≤ 200 * (feeAmount g : ℚ) := by
      exact_mod_cast h1
    push_cast
    linarith

theorem broadcastPhase_votes (cfg : Config) (st : FeederState) (env : Env)
    (vp : Nat) (vs : List VoteMsg) (ps : List PrevoteMsg)
    (pm sm : List (String × String)) :
    (broadcastPhase cfg st env vp vs ps pm sm).votes = vs := by
  rcases broadcastPhase_cases cfg st env vp vs ps pm sm with
    (h | h) | ⟨d, tx, _, _, _, _, h⟩ <;> rw [h] <;> rfl

theorem broadcastPhase_prevotes (cfg : Config) (st : FeederState)
    (env : Env) (vp : Nat) (vs : List VoteMsg) (ps : List PrevoteMsg)
    (pm sm : List (String × String)) :
    (broadcastPhase cfg st env vp vs ps pm sm).prevotes = ps := by
  rcases broadcastPhase_cases cfg st env vp vs ps pm sm with
    (h | h) | ⟨d, tx, _, _, _, _, h⟩ <;> rw [h] <;> rfl

theorem broadcastPhase_fee (cfg : Config) (st : FeederState) (env : Env)
    (vp : Nat) (vs : List VoteMsg) (ps : List PrevoteMsg)
    (pm sm : List (String × String)) :
    (broadcastPhase cfg st env vp vs ps pm sm).fee =
      some (feesFor (vs.length + ps.length)) := by
  rcases broadcastPhase_cases cfg st env vp vs ps pm sm with
    (h | h) | ⟨d, tx, _, _, _, _, h⟩ <;> rw [h] <;> rfl

theorem voteGate_true_iff (st : FeederState) (vp : Nat) :
    voteGate st vp = true ↔
      ∃ p, st.prevotePeriod = some p ∧ p ≠ 0 ∧ vp = p + 1 := by
  unfold voteGate truthyOpt
  cases hpp : st.prevotePeriod with
  | none => simp
  | some p =>
    simp only [Option.getD_some, Bool.and_eq_true, decide_eq_true_eq,
      Option.some.injEq]
    constructor
    · rintro ⟨hp0, hvp⟩
      exact ⟨p, rfl, hp0, by omega⟩
    · rintro ⟨q, hq, hq0, hvp⟩
      subst hq
      exact ⟨hq0, by omega⟩

theorem feesFor_spec (n : Nat) (hn : n ≠ 0) :
    1 ≤ n ∧ (feesFor n).gas = 50000 + 7500 * n ∧
    ((feesFor n).amount : Int) =
      Int.ceil (((feesFor n).gas : ℚ) * (15 / 1000)) ∧
    (feesFor n).denom = "ukrw" := by
  refine ⟨Nat.one_le_iff_ne_zero.mpr hn, ?_, ?_, rfl⟩
  · simp [feesFor, gasFor, Nat.mul_comm]
  · simpa [feesFor] using feeAmount_eq_ceil (gasFor n)

/-! Claim theorems. -/

/-- Claim C2: if the broadcast step fails (network or transport error, or
a response carrying a nonzero application code) or the confirmation step
fails (no poll result within the 45-poll window, or a nonzero code in the
result), then the prevote price map, the prevote salt map and the
prevote period are all exactly their values from the start of the
iteration. -/
theorem memory_unchanged_on_failure (cfg : Config) (st : FeederState)
    (env : Env)
    (hfail : env.broadcastResp = none ∨
      (∃ d, env.broadcastResp = some d ∧ d.code ≠ 0) ∨
      waitTx (env.txPolls.take 45) = none ∨
      ∃ tx, waitTx (env.txPolls.take 45) = some tx ∧ tx.code ≠ 0) :
    (runIteration cfg st env).state.prevotePrices = st.prevotePrices ∧
    (runIteration cfg st env).state.prevoteSalts = st.prevoteSalts ∧
    (runIteration cfg st env).state.prevotePeriod = st.prevotePeriod := by
  have hstate : (runIteration cfg st env).state = st := by
    rcases runIteration_cases cfg st env with hsk | ⟨prices, hp, heq⟩
    · rw [hsk]; rfl
    · rw [heq]
      rcases afterAccount_cases cfg st env
          (env.latestHeight / cfg.oracleVotePeriod) prices with
        (he | hn) | ⟨vs, hv, hlen, hbp⟩
      · rw [he]; rfl
      · rw [hn]; rfl
      · rw [hbp]
        rcases broadcastPhase_cases cfg st env
            (env.latestHeight / cfg.oracleVotePeriod) vs
            (buildPrevotes cfg env.saltFor prices).1
            (buildPrevotes cfg env.saltFor prices).2.1
            (buildPrevotes cfg env.saltFor prices).2.2 with
          (hf | hf) | ⟨d, tx, hd, hdc, htx, htc, hconf⟩
        · rw [hf]; rfl
        · rw [hf]; rfl
        · exfalso
          rcases hfail with h | ⟨d2, hd2, hc2⟩ | h | ⟨tx2, htx2, hc2⟩
          · rw [h] at hd; cases hd
          · rw [hd2] at hd
            injection hd with hd
            subst hd
            exact hc2 hdc
          · rw [h] at htx; cases htx
          · rw [htx2] at htx
            injection htx with htx
            subst htx
            exact hc2 htc
  rw [hstate]
  exact ⟨rfl, rfl, rfl⟩

/-- Witness for C2: a concrete iteration whose broadcast hits a network
error leaves all three pieces of memory untouched. -/
theorem memory_unchanged_on_failure_witness :
    ({ goodEnv 97 99 [⟨"krw", "1.0"⟩] "aaaa" with
        broadcastResp := none } : Env).broadcastResp = none ∧
    (runIteration cfgA s0
        { goodEnv 97 99 [⟨"krw", "1.0"⟩] "aaaa" with
          broadcastResp := none }).state.prevotePrices = s0.prevotePrices ∧
    (runIteration cfgA s0
        { goodEnv 97 99 [⟨"krw", "1.0"⟩] "aaaa" with
          broadcastResp := none }).state.prevoteSalts = s0.prevoteSalts ∧
    (runIteration cfgA s0
        { goodEnv 97 99 [⟨"krw", "1.0"⟩] "aaaa" with
          broadcastResp := none }).state.prevotePeriod = s0.prevotePeriod :=
  ⟨rfl,
    memory_unchanged_on_failure cfgA s0
      { goodEnv 97 99 [⟨"krw", "1.0"⟩] "aaaa" with broadcastResp := none }
      (Or.inl rfl)⟩

/-- Claim C3: whenever the iteration confirms a transaction with zero
code, the new prevotePeriod equals the floor of the confirmed transaction
height divided by the vote period — the period of the block that actually
included the transaction — where the confirmed height is the one the
45-poll confirmation returned, not the height sampled at the start of the
iteration. -/
theorem prevote_period_from_included_height (cfg : Config)
    (st : FeederState) (env : Env) (n : Nat)
    (hconf : (runIteration cfg st env).outcome = Outcome.confirmed n) :
    (runIteration cfg st env).state.prevotePeriod =
      some (n / cfg.oracleVotePeriod) ∧
    ∃ tx, waitTx (env.txPolls.take 45) = some tx ∧ tx.code = 0 ∧
      n = tx.height := by
  rcases runIteration_cases cfg st env with hsk | ⟨prices, hp, heq⟩
  · rw [hsk] at hconf; simp [skipResult] at hconf
  · rw [heq] at hconf ⊢
    rcases afterAccount_cases cfg st env
        (env.latestHeight / cfg.oracleVotePeriod) prices with
      (he | hn) | ⟨vs, hv, hlen, hbp⟩
    · rw [he] at hconf; simp [erroredResult] at hconf
    · rw [hn] at hconf; simp [noMsgResult] at hconf
    · rw [hbp] at hconf ⊢
      rcases broadcastPhase_cases cfg st env
          (env.latestHeight / cfg.oracleVotePeriod) vs
          (buildPrevotes cfg env.saltFor prices).1
          (buildPrevotes cfg env.saltFor prices).2.1
          (buildPrevotes cfg env.saltFor prices).2.2 with
        (hf | hf) | ⟨d, tx, hd, hdc, htx, htc, hcf⟩
      · rw [hf] at hconf; simp [failedResult] at hconf
      · rw [hf] at hconf; simp [failedResult] at hconf
      · rw [hcf] at hconf ⊢
        simp only [confirmedResult] at hconf
        injection hconf with hn2
        subst hn2
        exact ⟨by simp [confirmedResult], tx, htx, htc, rfl⟩

/-- Witness for C3 at the wrong-period-inclusion scenario: a transaction
sampled at period 30 but included at height 155 (period 31) sets
prevotePeriod to 31, not 30. -/
theorem prevote_period_from_included_height_witness :
    (runIteration cfgA s0 (goodEnv 154 155 [⟨"krw", "1.0"⟩] "aaaa")).outcome
        = Outcome.confirmed 155 ∧
    (goodEnv 154 155 [⟨"krw", "1.0"⟩] "aaaa").latestHeight /
        cfgA.oracleVotePeriod = 30 ∧
    (runIteration cfgA s0
        (goodEnv 154 155 [⟨"krw", "1.0"⟩] "aaaa")).state.prevotePeriod =
      some 31 := by
  refine ⟨by decide, by decide, ?_⟩
  exact (prevote_period_from_included_height cfgA s0
    (goodEnv 154 155 [⟨"krw", "1.0"⟩] "aaaa") 155 (by decide)).1

/-- Claim C10: every assembled transaction carries at least one message,
its gas limit is 50000 plus 7500 per message, its fee amount is the exact
ceiling of gas times 0.015, and its fee denom is the native fee denom
ukrw. -/
theorem gas_and_fee_formula (cfg : Config) (st : FeederState) (env : Env)
    (f : StdFee) (hf : (runIteration cfg st env).fee = some f) :
    1 ≤ (runIteration cfg st env).votes.length +
        (runIteration cfg st env).prevotes.length ∧
    f.gas = 50000 +
        7500 * ((runIteration cfg st env).votes.length +
          (runIteration cfg st env).prevotes.length) ∧
    (f.amount : Int) = Int.ceil ((f.gas : ℚ) * (15 / 1000)) ∧
    f.denom = "ukrw" := by
  rcases runIteration_cases cfg st env with hsk | ⟨prices, hp, heq⟩
  · rw [hsk] at hf; simp [skipResult] at hf
  · rw [heq] at hf ⊢
    rcases afterAccount_cases cfg st env
        (env.latestHeight / cfg.oracleVotePeriod) prices with
      (he | hn) | ⟨vs, hv, hlen, hbp⟩
    · rw [he] at hf; simp [erroredResult] at hf
    · rw [hn] at hf; simp [noMsgResult] at hf
    · rw [hbp] at hf ⊢
      rcases broadcastPhase_cases cfg st env
          (env.latestHeight / cfg.oracleVotePeriod) vs
          (buildPrevotes cfg env.saltFor prices).1
          (buildPrevotes cfg env.saltFor prices).2.1
          (buildPrevotes cfg env.saltFor prices).2.2 with
        (hc | hc) | ⟨d, tx, hd, hdc, htx, htc, hc⟩ <;>
        (rw [hc] at hf ⊢
         simp only [failedResult, confirmedResult, Option.some.injEq] at hf
         subst hf
         have hs := feesFor_spec
           (vs.length + (buildPrevotes cfg env.saltFor prices).1.length)
           hlen
         simpa [failedResult, confirmedResult] using hs)

/-- Fixture state with a remembered prevote for krw at period 12. -/
def stK : FeederState :=
  { prevotePrices := [("krw", "1.0")], prevoteSalts := [("krw", "aaaa")],
    prevotePeriod := some 12 }

/-- Fixture environment at height 68 (period 13) sampling a fresh krw
price, so that the iteration assembles one reveal and one prevote. -/
def envK : Env := goodEnv 68 68 [⟨"krw", "2.0"⟩] "eeee"

/-- Witness for C10: a transaction with two messages gets gas 65000 and
fee amount 975 in ukrw. -/
theorem gas_and_fee_formula_witness :
    (runIteration cfgA stK envK).fee =
      some { amount := 975, denom := "ukrw", gas := 65000 } ∧
    (1 ≤ (runIteration cfgA stK envK).votes.length +
        (runIteration cfgA stK envK).prevotes.length ∧
      (65000 : Nat) = 50000 +
        7500 * ((runIteration cfgA stK envK).votes.length +
          (runIteration cfgA stK envK).prevotes.length) ∧
      ((975 : Nat) : Int) = Int.ceil (((65000 : Nat) : ℚ) * (15 / 1000)) ∧
      "ukrw" = "ukrw") :=
  ⟨by decide, gas_and_fee_formula cfgA stK envK
    { amount := 975, denom := "ukrw", gas := 65000 } (by decide)⟩

/-- Claim C1 (amended): a reveal message is emitted only when the single
global prevotePeriod is truthy and the sampled period minus it is exactly
one, and every emitted reveal reads its exchange rate and salt from the
prevote memory entry of some currency.  The entry itself can be older
than one period, because the source keeps one global prevotePeriod rather
than a per-currency prevote period. -/
theorem reveal_requires_global_period_gate (cfg : Config)
    (st : FeederState) (env : Env)
    (hne : (runIteration cfg st env).votes ≠ []) :
    (∃ p, st.prevotePeriod = some p ∧ p ≠ 0 ∧
      env.latestHeight / cfg.oracleVotePeriod = p + 1) ∧
    ∀ m ∈ (runIteration cfg st env).votes,
      ∃ c, st.prevotePrices.lookup c = some m.exchange_rate ∧
        m.salt = (st.prevoteSalts.lookup c).getD "undefined" ∧
        m.denom = "u" ++ toLowerStr c := by
  rcases runIteration_cases cfg st env with hsk | ⟨prices, hp, heq⟩
  · rw [hsk] at hne; simp [skipResult] at hne
  · rw [heq] at hne ⊢
    rcases afterAccount_cases cfg st env
        (env.latestHeight / cfg.oracleVotePeriod) prices with
      (he | hn) | ⟨vs, hv, hlen, hbp⟩
    · rw [he] at hne; simp [erroredResult] at hne
    · rw [hn] at hne; simp [noMsgResult] at hne
    · rw [hbp] at hne ⊢
      rw [broadcastPhase_votes cfg st env
        (env.latestHeight / cfg.oracleVotePeriod) vs
        (buildPrevotes cfg env.saltFor prices).1
        (buildPrevotes cfg env.saltFor prices).2.1
        (buildPrevotes cfg env.saltFor prices).2.2] at hne ⊢
      by_cases hg : voteGate st (env.latestHeight / cfg.oracleVotePeriod)
      · rw [if_pos hg] at hv
        refine ⟨(voteGate_true_iff st
          (env.latestHeight / cfg.oracleVotePeriod)).mp hg, ?_⟩
        exact buildVoteMsgs_sound cfg st prices vs hv
      · rw [if_neg hg] at hv
        injection hv with hv
        exact absurd hv.symm hne

/-- Witness for the amended C1 at a concrete reveal: one reveal is
emitted at period 13 with global prevotePeriod 12, and it reads price and
salt from the memory entry for krw. -/
theorem reveal_requires_global_period_gate_witness :
    (runIteration cfgA stK envK).votes ≠ [] ∧
    ((∃ p, stK.prevotePeriod = some p ∧ p ≠ 0 ∧
        envK.latestHeight / cfgA.oracleVotePeriod = p + 1) ∧
      ∀ m ∈ (runIteration cfgA stK envK).votes,
        ∃ c, stK.prevotePrices.lookup c = some m.exchange_rate ∧
          m.salt = (stK.prevoteSalts.lookup c).getD "undefined" ∧
          m.denom = "u" ++ toLowerStr c) :=
  ⟨by decide, reveal_requires_global_period_gate cfgA stK envK (by decide)⟩

/-- First trace environment for the C1 counterexample: period 10, a
fresh krw price, confirmed at height 52 (period 10). -/
def envT1 : Env := goodEnv 52 52 [⟨"krw", "1.0"⟩] "aaaa"

/-- Second trace environment: period 12, only usd is sampled, confirmed
at height 63 (period 12); the krw memory entry stays from period 10. -/
def envT2 : Env := goodEnv 63 63 [⟨"usd", "2.0"⟩] "bbbb"

/-- Third trace environment: period 13 samples both currencies. -/
def envT3 : Env := goodEnv 68 68 [⟨"krw", "9.9"⟩, ⟨"usd", "2.1"⟩] "cccc"

/-- Counterexample to claim C1 as stated: in a three-iteration trace the
third iteration (sampled period 13) emits a reveal for krw whose price
and salt were committed by the confirmed prevote of period 10 — the
remembered prevote for krw is three periods old, not one, because the
once-per-period pairing gate is global, not per currency. -/
theorem stale_reveal_counterexample :
    (let r1 := runIteration cfgB s0 envT1
     let r2 := runIteration cfgB r1.state envT2
     let r3 := runIteration cfgB r2.state envT3
     r3.sampledPeriod = 13 ∧
     VoteMsg.mk "1.0" "aaaa" "ukrw" "feeder1" "val1" ∈ r3.votes ∧
     lastCommitPeriod [r1, r2] "krw" = some 10) := by decide

theorem getPrices_cons (now : Int) (r : PriceResponse)
    (rest : List PriceResponse) :
    getPrices now (r :: rest) =
      (if validPriceResponse now r then Except.ok (r.prices.getD [])
       else Except.error "could not fetch any price") := by
  by_cases hv : validPriceResponse now r <;>
    simp [getPrices, List.take_succ_cons, List.take_zero, List.filter, hv]

/-- Claim C4 (amended): the aggregator inspects only the first source
response to fulfill.  It returns that response's prices exactly when that
response is wellformed and fresh, and otherwise fails with
skip-this-tick, even when a later source response would have been valid;
with no fulfilled response it also fails. -/
theorem aggregator_considers_only_first_arrival (now : Int)
    (r : PriceResponse) (rest : List PriceResponse) :
    getPrices now (r :: rest) =
      (if validPriceResponse now r then Except.ok (r.prices.getD [])
       else Except.error "could not fetch any price") ∧
    getPrices now [] = Except.error "could not fetch any price" :=
  ⟨getPrices_cons now r rest, rfl⟩

/-- A stale source response: created_at is 45 s before now = 100000. -/
def staleResp : PriceResponse :=
  { created_at := some (some 55000), prices := some [⟨"krw", "1.0"⟩] }

/-- A fresh wellformed source response. -/
def freshResp : PriceResponse :=
  { created_at := some (some 100000), prices := some [⟨"krw", "2.0"⟩] }

/-- Counterexample to claim C4 as stated: the second source yields a
valid fresh response, but because the stale response fulfilled first the
aggregator fails anyway and the tick is skipped. -/
theorem aggregator_first_arrival_counterexample :
    validPriceResponse 100000 freshResp = true ∧
    getPrices 100000 [staleResp, freshResp] =
      Except.error "could not fetch any price" := ⟨by decide, rfl⟩

/-- Witness for the amended C4 at a concrete fresh response and at the
empty arrival list. -/
theorem aggregator_considers_only_first_arrival_witness :
    (getPrices 100000 [freshResp] =
      (if validPriceResponse 100000 freshResp then
        Except.ok (freshResp.prices.getD [])
       else Except.error "could not fetch any price")) ∧
    getPrices 100000 [] = Except.error "could not fetch any price" :=
  aggregator_considers_only_first_arrival 100000 freshResp []

/-- Claim C5 (amended): every response the aggregator accepts is the
first to fulfill, has a string created_at and a wellformed prices array,
and whenever the created_at string parses to a time t, now minus t is at
most 30 s.  The prices array may however be empty — the source checks
only Array.isArray, not nonemptiness — and an empty array is handed to
the voting loop; an unparseable created_at string also survives the age
test. -/
theorem aggregator_accepts_only_wellformed_fresh (now : Int)
    (arrivals : List PriceResponse) (ps : List PriceObs)
    (h : getPrices now arrivals = Except.ok ps) :
    ∃ r, arrivals.head? = some r ∧ r.prices = some ps ∧
      ∃ ca, r.created_at = some ca ∧
        ∀ t, ca = some t → now - t ≤ 30000 := by
  obtain ⟨r, hh, hv, hp⟩ := getPrices_ok_inversion now arrivals ps h
  exact ⟨r, hh, hp, validPriceResponse_created now r hv⟩

/-- Counterexample to claim C5 as stated: a fresh response whose prices
array is empty is accepted, and the empty list is returned to the voting
loop. -/
theorem aggregator_empty_prices_counterexample :
    getPrices 100000
      [{ created_at := some (some 100000), prices := some [] }] =
      Except.ok [] := rfl

/-- Witness for the amended C5 at a concrete accepted response. -/
theorem aggregator_accepts_only_wellformed_fresh_witness :
    getPrices 100000 [freshResp] = Except.ok [⟨"krw", "2.0"⟩] ∧
    ∃ r, ([freshResp] : List PriceResponse).head? = some r ∧
      r.prices = some [⟨"krw", "2.0"⟩] ∧
      ∃ ca, r.created_at = some ca ∧
        ∀ t, ca = some t → (100000 : Int) - t ≤ 30000 :=
  ⟨rfl, aggregator_accepts_only_wellformed_fresh 100000 [freshResp]
    [⟨"krw", "2.0"⟩] rfl⟩

/-- Claim C8 (amended): the account query fails only when account_number
or sequence is missing or not a string — a string that is not a decimal
integer is accepted unchanged — and the failure is not fatal: the voting
loop catches it, skips the tick and leaves the state unchanged. -/
theorem account_query_string_check_and_skip :
    (∀ a s : String,
      queryAccount { account_number := some a, sequence := some s } =
        Except.ok { account_number := a, sequence := s }) ∧
    (∀ (cfg : Config) (st : FeederState) (env : Env)
        (v : AccountResponseValue), env.accountResp = some v →
      v.account_number = none ∨ v.sequence = none →
      (runIteration cfg st env).outcome = Outcome.skipped ∧
      (runIteration cfg st env).state = st) := by
  refine ⟨fun a s => rfl, ?_⟩
  intro cfg st env v hv hmiss
  have herr := queryAccount_error_of_missing v hmiss
  by_cases hg : skipGate cfg st env.latestHeight
  · constructor <;> simp [runIteration, hg, skipResult]
  · cases hp : getPrices env.now env.priceArrivals with
    | error e => constructor <;> simp [runIteration, hg, hp, skipResult]
    | ok prices =>
      constructor <;> simp [runIteration, hg, hp, hv, herr, skipResult]

/-- Environment whose account response misses account_number; all other
steps would succeed. -/
def envC8 : Env :=
  { goodEnv 97 99 [⟨"krw", "1.0"⟩] "aaaa" with
    accountResp := some { account_number := none, sequence := some "0" } }

/-- Counterexample to claim C8 as stated: a non-decimal account_number
string is accepted by the account query, and a missing field does not
abort the process — the iteration merely skips the tick. -/
theorem account_query_skip_counterexample :
    queryAccount { account_number := some "not-a-decimal",
                   sequence := some "also-not-a-decimal" } =
      Except.ok { account_number := "not-a-decimal",
                  sequence := "also-not-a-decimal" } ∧
    (runIteration cfgA s0 envC8).outcome = Outcome.skipped :=
  ⟨rfl, by decide⟩

/-- Witness for the amended C8: a non-decimal pair is accepted, and with
the account_number field missing the concrete iteration skips with the
state unchanged. -/
theorem account_query_string_check_and_skip_witness :
    queryAccount { account_number := some "abc", sequence := some "9x" } =
      Except.ok { account_number := "abc", sequence := "9x" } ∧
    envC8.accountResp =
      some { account_number := none, sequence := some "0" } ∧
    (runIteration cfgA s0 envC8).outcome = Outcome.skipped ∧
    (runIteration cfgA s0 envC8).state = s0 := by
  have h := account_query_string_check_and_skip
  have h2 := h.2 cfgA s0 envC8
    { account_number := none, sequence := some "0" } rfl (Or.inl rfl)
  exact ⟨h.1 "abc" "9x", rfl, h2.1, h2.2⟩

/-- Claim C9 (amended): after an iteration that completes normally or
skips, the loop sleeps the maximum of 5000 and 6000 minus the elapsed
milliseconds — at least 5 s, targeting 6 s from the start of the
iteration — but an iteration that ends in an unexpected exception hits
the continue statement and restarts immediately without sleeping. -/
theorem pacing_after_normal_iteration (r : IterResult)
    (elapsedMillis : Nat) (h : r.outcome ≠ Outcome.errored) :
    sleepAfter r elapsedMillis =
      some (max 5000 (6000 - elapsedMillis)) ∧
    5000 ≤ (sleepAfter r elapsedMillis).getD 0 := by
  have hs : sleepAfter r elapsedMillis =
      some (max 5000 (6000 - elapsedMillis)) := by
    unfold sleepAfter
    cases ho : r.outcome <;> first | rfl | exact absurd ho h
  refine ⟨hs, ?_⟩
  rw [hs]
  exact le_max_left 5000 (6000 - elapsedMillis)

/-- Fixture environments for the gate scenarios: one height below the
phase gate, one at its boundary. -/
def env96 : Env := goodEnv 96 99 [⟨"krw", "1.0"⟩] "aaaa"

/-- Fixture environment at height 97, index 2 in a period of 5. -/
def env97 : Env := goodEnv 97 99 [⟨"krw", "1.0"⟩] "aaaa"

/-- Witness for the amended C9 at a concrete skipped iteration. -/
theorem pacing_after_normal_iteration_witness :
    (runIteration cfgA s0 env96).outcome ≠ Outcome.errored ∧
    (sleepAfter (runIteration cfgA s0 env96) 500 =
        some (max 5000 (6000 - 500)) ∧
      5000 ≤ (sleepAfter (runIteration cfgA s0 env96) 500).getD 0) :=
  ⟨by decide, pacing_after_normal_iteration (runIteration cfgA s0 env96)
    500 (by decide)⟩

/-- State remembering the previous period globally but holding no krw
entry, which triggers the TypeError path when a krw reveal is built. -/
def stErr : FeederState :=
  { prevotePrices := [], prevoteSalts := [], prevotePeriod := some 12 }

/-- Environment at period 13 sampling krw, pairing with stErr. -/
def envErr : Env := goodEnv 68 68 [⟨"krw", "1.0"⟩] "dddd"

/-- Counterexample to claim C9 as stated: an iteration that ends in an
unexpected exception (a TypeError while building a reveal) reaches the
continue statement, so the loop restarts immediately and performs no
sleep at all — the 5 second minimum interval does not hold there. -/
theorem no_sleep_after_unexpected_error_counterexample :
    (runIteration cfgA stErr envErr).outcome = Outcome.errored ∧
    sleepAfter (runIteration cfgA stErr envErr) 500 = none := by decide

/-- Claim C6: with the default denoms argument the filter list becomes
the single literal string all, so when no sampled currency lowercases to
the string all, every currency is excluded by the membership test: no
reveal and no prevote message is produced, no fee is assembled — hence no
transaction is ever broadcast — and the state is untouched. -/
theorem denoms_all_filters_everything (cfg : Config) (st : FeederState)
    (env : Env) (hall : cfg.denomArray = parseDenoms "all")
    (hcur : ∀ r ∈ env.priceArrivals, ∀ o ∈ r.prices.getD [],
      toLowerStr o.currency ≠ "all") :
    parseDenoms "all" = ["all"] ∧
    (runIteration cfg st env).votes = [] ∧
    (runIteration cfg st env).prevotes = [] ∧
    (runIteration cfg st env).fee = none ∧
    (runIteration cfg st env).state = st := by
  have hpd : parseDenoms "all" = ["all"] := by decide
  refine ⟨hpd, ?_⟩
  rcases runIteration_cases cfg st env with hsk | ⟨prices, hp, heq⟩
  · rw [hsk]; exact ⟨rfl, rfl, rfl, rfl⟩
  · obtain ⟨r, hh, hv, hpr⟩ :=
      getPrices_ok_inversion env.now env.priceArrivals prices hp
    have hmem : r ∈ env.priceArrivals := by
      cases harr : env.priceArrivals with
      | nil => rw [harr] at hh; cases hh
      | cons a rest =>
        rw [harr] at hh
        injection hh with hh
        rw [← hh]
        exact List.mem_cons_self a rest
    have hno : ∀ o ∈ prices,
        ¬ cfg.denomArray.contains (toLowerStr o.currency) := by
      intro o ho hx
      have hoin : o ∈ r.prices.getD [] := by
        rw [hpr]
        simpa using ho
      have h1 : toLowerStr o.currency ≠ "all" := hcur r hmem o hoin
      rw [hall, hpd] at hx
      exact h1 (by simpa using hx)
    have hvm : buildVoteMsgs cfg st prices = Except.ok [] :=
      buildVoteMsgs_nil_of_filtered cfg st prices hno
    have hbp0 : buildPrevotes cfg env.saltFor prices = ([], [], []) :=
      buildPrevotes_nil_of_filtered cfg env.saltFor prices hno
    have hvs : (if voteGate st (env.latestHeight / cfg.oracleVotePeriod)
        then buildVoteMsgs cfg st prices else Except.ok []) =
        Except.ok [] := by
      by_cases hg : voteGate st (env.latestHeight / cfg.oracleVotePeriod)
      · rw [if_pos hg]; exact hvm
      · rw [if_neg hg]
    have haa : afterAccount cfg st env
        (env.latestHeight / cfg.oracleVotePeriod) prices =
        noMsgResult st (env.latestHeight / cfg.oracleVotePeriod) := by
      simp [afterAccount, hvs, hbp0]
    rw [heq, haa]
    exact ⟨rfl, rfl, rfl, rfl⟩

/-- Environment sampling an ordinary currency for the C6 witness. -/
def envAll : Env := goodEnv 97 99 [⟨"krw", "1.0"⟩] "aaaa"

/-- Witness for C6: with the default filter, a concrete healthy tick
sampling krw produces no message, no fee and no state change. -/
theorem denoms_all_filters_everything_witness :
    cfgAll.denomArray = parseDenoms "all" ∧
    (parseDenoms "all" = ["all"] ∧
      (runIteration cfgAll s0 envAll).votes = [] ∧
      (runIteration cfgAll s0 envAll).prevotes = [] ∧
      (runIteration cfgAll s0 envAll).fee = none ∧
      (runIteration cfgAll s0 envAll).state = s0) :=
  ⟨rfl, denoms_all_filters_everything cfgAll s0 envAll rfl (by decide)⟩

/-- Claim C7 (amended): with vote period 5 and empty prevote memory, a
tick sampled at height 96 (index 1 in the period) is skipped by the phase
gate, while ticks at heights 97 (index 2) and 98 (index 3) pass the gate
— the gate passes exactly from index vote_period minus 3 = 2 on — and,
when prices and account succeed, assemble no reveals and one prevote
message per in-filter sampled currency and configured validator, which is
then broadcast. -/
theorem gate_boundary_behavior (cfg : Config) (st : FeederState)
    (hvp : cfg.oracleVotePeriod = 5) (hst : st.prevotePeriod = none) :
    (∀ env : Env, env.latestHeight = 96 →
      (runIteration cfg st env).outcome = Outcome.skipped ∧
      (runIteration cfg st env).fee = none) ∧
    (∀ env : Env, env.latestHeight = 97 ∨ env.latestHeight = 98 →
      skipGate cfg st env.latestHeight = false ∧
      ∀ prices, getPrices env.now env.priceArrivals = Except.ok prices →
        ∀ v acc, env.accountResp = some v →
          queryAccount v = Except.ok acc →
          (runIteration cfg st env).votes = [] ∧
          (runIteration cfg st env).prevotes.length =
            (prices.filter (fun o =>
              cfg.denomArray.contains (toLowerStr o.currency))).length *
              cfg.validators.length ∧
          ((runIteration cfg st env).prevotes ≠ [] →
            (runIteration cfg st env).fee ≠ none)) := by
  constructor
  · intro env h96
    have hsg : skipGate cfg st env.latestHeight = true := by
      simp [skipGate, truthyOpt, hvp, hst, h96]
    constructor <;> simp [runIteration, hsg, skipResult]
  · intro env h9798
    have hsg : skipGate cfg st env.latestHeight = false := by
      rcases h9798 with h | h <;>
        simp [skipGate, truthyOpt, hvp, hst, h]
    refine ⟨hsg, ?_⟩
    intro prices hp v acc hv hacc
    have hrun : runIteration cfg st env =
        afterAccount cfg st env (env.latestHeight / cfg.oracleVotePeriod)
          prices := by
      simp [runIteration, hsg, hp, hv, hacc]
    rw [hrun]
    have hvg : voteGate st (env.latestHeight / cfg.oracleVotePeriod) =
        false := by
      simp [voteGate, truthyOpt, hst]
    have hvs : (if voteGate st (env.latestHeight / cfg.oracleVotePeriod)
        then buildVoteMsgs cfg st prices else Except.ok []) =
        Except.ok [] := by rw [hvg]; rfl
    by_cases hlen : (buildPrevotes cfg env.saltFor prices).1.length = 0
    · have haa : afterAccount cfg st env
          (env.latestHeight / cfg.oracleVotePeriod) prices =
          noMsgResult st (env.latestHeight / cfg.oracleVotePeriod) := by
        simp [afterAccount, hvs, hlen]
      rw [haa]
      refine ⟨rfl, ?_, by simp [noMsgResult]⟩
      have hzero : (noMsgResult st
          (env.latestHeight / cfg.oracleVotePeriod)).prevotes.length = 0 :=
        rfl
      rw [hzero, ← buildPrevotes_length cfg env.saltFor prices]
      exact hlen.symm
    · have haa : afterAccount cfg st env
          (env.latestHeight / cfg.oracleVotePeriod) prices =
          broadcastPhase cfg st env
            (env.latestHeight / cfg.oracleVotePeriod) []
            (buildPrevotes cfg env.saltFor prices).1
            (buildPrevotes cfg env.saltFor prices).2.1
            (buildPrevotes cfg env.saltFor prices).2.2 := by
        simp [afterAccount, hvs, hlen]
      rw [haa]
      refine ⟨broadcastPhase_votes cfg st env _ _ _ _ _, ?_, ?_⟩
      · rw [broadcastPhase_prevotes cfg st env _ _ _ _ _]
        exact buildPrevotes_length cfg env.saltFor prices
      · intro _
        rw [broadcastPhase_fee cfg st env _ _ _ _ _]
        simp

/-- Counterexample to claim C7 as stated: at height 97 with empty memory
the gate passes (index 2 is not below vote_period minus 3 = 2), so the
tick is not skipped — it broadcasts a prevote and confirms. -/
theorem gate_height_97_acts_counterexample :
    (runIteration cfgA s0 env97).outcome = Outcome.confirmed 99 ∧
    (runIteration cfgA s0 env97).outcome ≠ Outcome.skipped ∧
    (runIteration cfgA s0 env97).prevotes.length = 1 := by decide

/-- Witness for the amended C7 at heights 96 and 97 with one sampled
currency and one validator. -/
theorem gate_boundary_behavior_witness :
    ((runIteration cfgA s0 env96).outcome = Outcome.skipped ∧
      (runIteration cfgA s0 env96).fee = none) ∧
    (skipGate cfgA s0 env97.latestHeight = false ∧
      (runIteration cfgA s0 env97).votes = [] ∧
      (runIteration cfgA s0 env97).prevotes.length = 1 ∧
      ((runIteration cfgA s0 env97).prevotes ≠ [] →
        (runIteration cfgA s0 env97).fee ≠ none)) := by
  have h := gate_boundary_behavior cfgA s0 rfl rfl
  refine ⟨h.1 env96 rfl, ?_⟩
  have h2 := h.2 env97 (Or.inl rfl)
  have h3 := h2.2 [⟨"krw", "1.0"⟩] rfl
    { account_number := some "1", sequence := some "0" }
    { account_number := "1", sequence := "0" } rfl rfl
  refine ⟨h2.1, h3.1, ?_, h3.2.2⟩
  rw [h3.2.1]
  decide

end OracleFeeder
